import Mathlib

/-!
Verification of the YOLO repository's geometry utilities, IoU metric family,
data parsers and building blocks, shallowly embedded in Lean 4 over exact
rational arithmetic.  Tensor operations that act elementwise over leading
(batch) dimensions are embedded at the level of a single element; helper
modules of the repository whose bodies are not part of the listing
(`box_utils`, `preprocessing_ops`, `loss_utils`, `_scale_image`) are modelled
from the specification and marked as such in their doc comments.
-/

namespace Spec2Proof

/-! ## Geometry utilities (yolo/utils/box_utils.py, modelled from the spec) -/

/-- A box in center form: `x_center, y_center, width, height` (the last
dimension of size 4 of the tensors the repository passes around). -/
structure BoxC where
  x : ℚ
  y : ℚ
  w : ℚ
  h : ℚ
deriving DecidableEq, Repr

/-- A box in corner form `x1, y1, x2, y2` (min corner then max corner). -/
structure BoxXY where
  xmin : ℚ
  ymin : ℚ
  xmax : ℚ
  ymax : ℚ
deriving DecidableEq, Repr

/-- `tf.math.divide_no_nan`: division that resolves a zero denominator to
zero instead of NaN/Inf ("zero-safe division" in the spec). -/
def divide_no_nan (a b : ℚ) : ℚ := if b = 0 then 0 else a / b

/-- `tf.clip_by_value` on a scalar. -/
def clip_by_value (v lo hi : ℚ) : ℚ := min (max v lo) hi

/-- Modelled from the spec: `box_utils._xcycwh_to_xyxy`, the exact
center-form to corner-form conversion. -/
def _xcycwh_to_xyxy (b : BoxC) : BoxXY :=
  ⟨b.x - b.w / 2, b.y - b.h / 2, b.x + b.w / 2, b.y + b.h / 2⟩

/-- Modelled from the spec: `box_utils._get_area` of a corner-form box. -/
def _get_area (b : BoxXY) : ℚ := (b.xmax - b.xmin) * (b.ymax - b.ymin)

/-- Modelled from the spec: `box_utils._get_area` called with
`use_tuple=True` on a (min-corner, max-corner) pair. -/
def _get_area_tuple (mins maxes : ℚ × ℚ) : ℚ :=
  (maxes.1 - mins.1) * (maxes.2 - mins.2)

/-- Modelled from the spec: `box_utils._intersection_and_union` of two
corner-form boxes, clamping negative overlap widths/heights to zero so that
disjoint boxes have zero intersection. -/
def _intersection_and_union (b1 b2 : BoxXY) : ℚ × ℚ :=
  let ix := max (min b1.xmax b2.xmax - max b1.xmin b2.xmin) 0
  let iy := max (min b1.ymax b2.ymax - max b1.ymin b2.ymin) 0
  let intersection := ix * iy
  let union := _get_area b1 + _get_area b2 - intersection
  (intersection, union)

/-- Modelled from the spec: `box_utils._center_distance`, the squared
Euclidean distance between two 2-D points. -/
def _center_distance (p q : ℚ × ℚ) : ℚ :=
  (p.1 - q.1) ^ 2 + (p.2 - q.2) ^ 2

/-! ## IoU metric family (src/yolo/utils/iou_utils.py) -/

/-- `compute_iou`: convert both center-form boxes to corner form, divide
intersection by union zero-safely, clip to [0,1]. -/
def compute_iou (box1 box2 : BoxC) : ℚ :=
  let b1 := _xcycwh_to_xyxy box1
  let b2 := _xcycwh_to_xyxy box2
  let iu := _intersection_and_union b1 b2
  let iou := divide_no_nan iu.1 iu.2
  clip_by_value iou 0 1

/-- `compute_giou`: IoU, then the smallest enclosing box `c` from the
element-wise min of min-corners and max of max-corners;
`giou = iou - (c - union)/c` with zero-safe division.  Returns (iou, giou). -/
def compute_giou (box1 box2 : BoxC) : ℚ × ℚ :=
  let b1 := _xcycwh_to_xyxy box1
  let b2 := _xcycwh_to_xyxy box2
  let iu := _intersection_and_union b1 b2
  let iou := clip_by_value (divide_no_nan iu.1 iu.2) 0 1
  let c_mins := (min b1.xmin b2.xmin, min b1.ymin b2.ymin)
  let c_maxes := (max b1.xmax b2.xmax, max b1.ymax b2.ymax)
  let c := _get_area_tuple c_mins c_maxes
  let giou := iou - divide_no_nan (c - iu.2) c
  (iou, giou)

/-- `compute_diou`: squared center distance `dist` taken on the original
center-form coordinates before the corner conversion, IoU as in
`compute_iou`, squared diagonal of the enclosing box via `_center_distance`
on its two corners, `diou = iou + dist/diag_dist` (zero-safe).
Returns (iou, diou). -/
def compute_diou (box1 box2 : BoxC) : ℚ × ℚ :=
  let dist := _center_distance (box1.x, box1.y) (box2.x, box2.y)
  let b1 := _xcycwh_to_xyxy box1
  let b2 := _xcycwh_to_xyxy box2
  let iu := _intersection_and_union b1 b2
  let iou := clip_by_value (divide_no_nan iu.1 iu.2) 0 1
  let c_mins := (min b1.xmin b2.xmin, min b1.ymin b2.ymin)
  let c_maxes := (max b1.xmax b2.xmax, max b1.ymax b2.ymax)
  let diag_dist := _center_distance c_mins c_maxes
  let regularization := divide_no_nan dist diag_dist
  let diou := iou + regularization
  (iou, diou)

/-! Spec-side formulas, written independently from the spec sentences, to be
compared against the code path above. -/

/-- The spec's "squared center distance computed on the original center-form
coordinates": `(x1-x2)^2 + (y1-y2)^2` on the raw center coordinates. -/
def spec_center_dist_sq (b1 b2 : BoxC) : ℚ :=
  (b1.x - b2.x) ^ 2 + (b1.y - b2.y) ^ 2

/-- The spec's "squared diagonal of the smallest enclosing box", computed in
corner space. -/
def spec_enclose_diag_sq (box1 box2 : BoxC) : ℚ :=
  let b1 := _xcycwh_to_xyxy box1
  let b2 := _xcycwh_to_xyxy box2
  (max b1.xmax b2.xmax - min b1.xmin b2.xmin) ^ 2 +
    (max b1.ymax b2.ymax - min b1.ymin b2.ymin) ^ 2

/-- Area of the smallest box enclosing both boxes (corner space). -/
def enclose_area (box1 box2 : BoxC) : ℚ :=
  let b1 := _xcycwh_to_xyxy box1
  let b2 := _xcycwh_to_xyxy box2
  (max b1.xmax b2.xmax - min b1.xmin b2.xmin) *
    (max b1.ymax b2.ymax - min b1.ymin b2.ymin)

/-- The union term used throughout the IoU family. -/
def union_area (box1 box2 : BoxC) : ℚ :=
  (_intersection_and_union (_xcycwh_to_xyxy box1) (_xcycwh_to_xyxy box2)).2

/-- The intersection term used throughout the IoU family. -/
def inter_area (box1 box2 : BoxC) : ℚ :=
  (_intersection_and_union (_xcycwh_to_xyxy box1) (_xcycwh_to_xyxy box2)).1

theorem compute_giou_eq (b1 b2 : BoxC) :
    compute_giou b1 b2 =
      (compute_iou b1 b2,
        compute_iou b1 b2 -
          divide_no_nan (enclose_area b1 b2 - union_area b1 b2)
            (enclose_area b1 b2)) := rfl

theorem compute_diou_eq (b1 b2 : BoxC) :
    compute_diou b1 b2 =
      (compute_iou b1 b2,
        compute_iou b1 b2 +
          divide_no_nan (spec_center_dist_sq b1 b2)
            (spec_enclose_diag_sq b1 b2)) := by
  simp only [compute_diou, compute_iou, _center_distance, spec_center_dist_sq,
    spec_enclose_diag_sq, Prod.mk.injEq]
  refine ⟨trivial, ?_⟩
  congr 1
  congr 1
  ring

/-- C1: `compute_diou` returns a pair whose first component is the IoU and
whose second is the IoU *plus* the zero-safe quotient of the squared center
distance (taken on the original center-form coordinates) by the squared
diagonal of the smallest enclosing box; a zero diagonal makes the penalty
term zero, so `diou = iou` in that case. -/
theorem compute_diou_spec (b1 b2 : BoxC) :
    (compute_diou b1 b2).1 = compute_iou b1 b2 ∧
    (compute_diou b1 b2).2 =
      compute_iou b1 b2 +
        divide_no_nan (spec_center_dist_sq b1 b2) (spec_enclose_diag_sq b1 b2) ∧
    (spec_enclose_diag_sq b1 b2 = 0 → (compute_diou b1 b2).2 = compute_iou b1 b2) := by
  refine ⟨by rw [compute_diou_eq], by rw [compute_diou_eq], ?_⟩
  intro h
  rw [compute_diou_eq]
  simp [divide_no_nan, h]

/-- Witness for `compute_diou_spec`: concrete identical degenerate boxes make
the enclosing diagonal zero, and the penalty term indeed vanishes. -/
theorem compute_diou_spec_witness :
    spec_enclose_diag_sq ⟨0, 0, 0, 0⟩ ⟨0, 0, 0, 0⟩ = 0 ∧
    (compute_diou ⟨0, 0, 0, 0⟩ ⟨0, 0, 0, 0⟩).2 =
      compute_iou ⟨0, 0, 0, 0⟩ ⟨0, 0, 0, 0⟩ :=
  ⟨by norm_num [spec_enclose_diag_sq, _xcycwh_to_xyxy],
    (compute_diou_spec ⟨0, 0, 0, 0⟩ ⟨0, 0, 0, 0⟩).2.2
      (by norm_num [spec_enclose_diag_sq, _xcycwh_to_xyxy])⟩

/-! ### GIoU: the enclosing box dominates the union -/

lemma union_le_enclose_core (l1 r1 u1 d1 l2 r2 u2 d2 : ℚ)
    (hw1 : l1 ≤ r1) (hh1 : u1 ≤ d1) (hw2 : l2 ≤ r2) (hh2 : u2 ≤ d2) :
    (r1 - l1) * (d1 - u1) + (r2 - l2) * (d2 - u2) -
        max (min r1 r2 - max l1 l2) 0 * max (min d1 d2 - max u1 u2) 0 ≤
      (max r1 r2 - min l1 l2) * (max d1 d2 - min u1 u2) := by
  have hW : max r1 r2 - min l1 l2
      = (r1 - l1) + (r2 - l2) - (min r1 r2 - max l1 l2) := by
    have h1 := max_add_min r1 r2
    have h2 := max_add_min l1 l2
    linarith
  have hH : max d1 d2 - min u1 u2
      = (d1 - u1) + (d2 - u2) - (min d1 d2 - max u1 u2) := by
    have h1 := max_add_min d1 d2
    have h2 := max_add_min u1 u2
    linarith
  have hu1 : min r1 r2 - max l1 l2 ≤ r1 - l1 := by
    have h1 := min_le_left r1 r2
    have h2 := le_max_left l1 l2
    linarith
  have hu2 : min r1 r2 - max l1 l2 ≤ r2 - l2 := by
    have h1 := min_le_right r1 r2
    have h2 := le_max_right l1 l2
    linarith
  have hv1 : min d1 d2 - max u1 u2 ≤ d1 - u1 := by
    have h1 := min_le_left d1 d2
    have h2 := le_max_left u1 u2
    linarith
  have hv2 : min d1 d2 - max u1 u2 ≤ d2 - u2 := by
    have h1 := min_le_right d1 d2
    have h2 := le_max_right u1 u2
    linarith
  have hW1 : (0:ℚ) ≤ r1 - l1 := by linarith
  have hW2 : (0:ℚ) ≤ r2 - l2 := by linarith
  have hH1 : (0:ℚ) ≤ d1 - u1 := by linarith
  have hH2 : (0:ℚ) ≤ d2 - u2 := by linarith
  rw [hW, hH]
  rcases le_total (min r1 r2 - max l1 l2) 0 with hu | hu
  · rw [max_eq_right hu]
    nlinarith [mul_nonneg hW1
        (by linarith : (0:ℚ) ≤ (d2 - u2) - (min d1 d2 - max u1 u2)),
      mul_nonneg hW2
        (by linarith : (0:ℚ) ≤ (d1 - u1) - (min d1 d2 - max u1 u2)),
      mul_nonneg (by linarith : (0:ℚ) ≤ -(min r1 r2 - max l1 l2))
        (by linarith :
          (0:ℚ) ≤ (d1 - u1) + (d2 - u2) - (min d1 d2 - max u1 u2))]
  · rw [max_eq_left hu]
    rcases le_total (min d1 d2 - max u1 u2) 0 with hv | hv
    · rw [max_eq_right hv]
      nlinarith [mul_nonneg
          (by linarith : (0:ℚ) ≤ (r1 - l1) - (min r1 r2 - max l1 l2)) hH2,
        mul_nonneg
          (by linarith : (0:ℚ) ≤ (r2 - l2) - (min r1 r2 - max l1 l2)) hH1,
        mul_nonneg (by linarith : (0:ℚ) ≤ -(min d1 d2 - max u1 u2))
          (by linarith :
            (0:ℚ) ≤ (r1 - l1) + (r2 - l2) - (min r1 r2 - max l1 l2))]
    · rw [max_eq_left hv]
      nlinarith [mul_nonneg
          (by linarith : (0:ℚ) ≤ (r1 - l1) - (min r1 r2 - max l1 l2))
          (by linarith : (0:ℚ) ≤ (d2 - u2) - (min d1 d2 - max u1 u2)),
        mul_nonneg
          (by linarith : (0:ℚ) ≤ (r2 - l2) - (min r1 r2 - max l1 l2))
          (by linarith : (0:ℚ) ≤ (d1 - u1) - (min d1 d2 - max u1 u2))]

lemma union_zero_core (l1 r1 u1 d1 l2 r2 u2 d2 : ℚ)
    (hw1 : l1 ≤ r1) (hh1 : u1 ≤ d1) (hw2 : l2 ≤ r2) (hh2 : u2 ≤ d2)
    (hC : (max r1 r2 - min l1 l2) * (max d1 d2 - min u1 u2) = 0) :
    (r1 - l1) * (d1 - u1) + (r2 - l2) * (d2 - u2) -
        max (min r1 r2 - max l1 l2) 0 * max (min d1 d2 - max u1 u2) 0 = 0 := by
  have hSW1 : r1 - l1 ≤ max r1 r2 - min l1 l2 := by
    have h1 := le_max_left r1 r2
    have h2 := min_le_left l1 l2
    linarith
  have hSW2 : r2 - l2 ≤ max r1 r2 - min l1 l2 := by
    have h1 := le_max_right r1 r2
    have h2 := min_le_right l1 l2
    linarith
  have hSH1 : d1 - u1 ≤ max d1 d2 - min u1 u2 := by
    have h1 := le_max_left d1 d2
    have h2 := min_le_left u1 u2
    linarith
  have hSH2 : d2 - u2 ≤ max d1 d2 - min u1 u2 := by
    have h1 := le_max_right d1 d2
    have h2 := min_le_right u1 u2
    linarith
  have hiw : min r1 r2 - max l1 l2 ≤ max r1 r2 - min l1 l2 := by
    have h1 := min_le_max (a := r1) (b := r2)
    have h2 := min_le_max (a := l1) (b := l2)
    linarith
  have hih : min d1 d2 - max u1 u2 ≤ max d1 d2 - min u1 u2 := by
    have h1 := min_le_max (a := d1) (b := d2)
    have h2 := min_le_max (a := u1) (b := u2)
    linarith
  rcases mul_eq_zero.mp hC with h | h
  · have e1 : r1 - l1 = 0 := le_antisymm (by linarith) (by linarith)
    have e2 : r2 - l2 = 0 := le_antisymm (by linarith) (by linarith)
    have ez : max (min r1 r2 - max l1 l2) 0 = 0 := max_eq_right (by linarith)
    rw [ez, zero_mul, e1, e2]
    ring
  · have e1 : d1 - u1 = 0 := le_antisymm (by linarith) (by linarith)
    have e2 : d2 - u2 = 0 := le_antisymm (by linarith) (by linarith)
    have ez : max (min d1 d2 - max u1 u2) 0 = 0 := max_eq_right (by linarith)
    rw [ez, mul_zero, e1, e2]
    ring

lemma union_le_enclose (b1 b2 : BoxC)
    (hw1 : 0 ≤ b1.w) (hh1 : 0 ≤ b1.h) (hw2 : 0 ≤ b2.w) (hh2 : 0 ≤ b2.h) :
    union_area b1 b2 ≤ enclose_area b1 b2 := by
  simp only [union_area, enclose_area, _intersection_and_union, _get_area,
    _xcycwh_to_xyxy]
  exact union_le_enclose_core _ _ _ _ _ _ _ _ (by linarith) (by linarith)
    (by linarith) (by linarith)

lemma enclose_area_nonneg (b1 b2 : BoxC)
    (hw1 : 0 ≤ b1.w) (hh1 : 0 ≤ b1.h) (hw2 : 0 ≤ b2.w) (hh2 : 0 ≤ b2.h) :
    0 ≤ enclose_area b1 b2 := by
  simp only [enclose_area, _xcycwh_to_xyxy]
  have hx : b1.x - b1.w / 2 ≤ b1.x + b1.w / 2 := by linarith
  have hy : b1.y - b1.h / 2 ≤ b1.y + b1.h / 2 := by linarith
  have h1 : min (b1.x - b1.w / 2) (b2.x - b2.w / 2) ≤ b1.x - b1.w / 2 :=
    min_le_left _ _
  have h2 : b1.x + b1.w / 2 ≤ max (b1.x + b1.w / 2) (b2.x + b2.w / 2) :=
    le_max_left _ _
  have h3 : min (b1.y - b1.h / 2) (b2.y - b2.h / 2) ≤ b1.y - b1.h / 2 :=
    min_le_left _ _
  have h4 : b1.y + b1.h / 2 ≤ max (b1.y + b1.h / 2) (b2.y + b2.h / 2) :=
    le_max_left _ _
  exact mul_nonneg (by linarith) (by linarith)

lemma enclose_zero_union_zero (b1 b2 : BoxC)
    (hw1 : 0 ≤ b1.w) (hh1 : 0 ≤ b1.h) (hw2 : 0 ≤ b2.w) (hh2 : 0 ≤ b2.h)
    (hC : enclose_area b1 b2 = 0) : union_area b1 b2 = 0 := by
  simp only [union_area, _intersection_and_union, _get_area, _xcycwh_to_xyxy]
  simp only [enclose_area, _xcycwh_to_xyxy] at hC
  exact union_zero_core _ _ _ _ _ _ _ _ (by linarith) (by linarith)
    (by linarith) (by linarith) hC

/-- C2: for boxes with non-negative widths and heights, the second component
(giou) returned by `compute_giou` is at most the first component (iou), with
equality exactly when the union already equals the area of the smallest
enclosing box. -/
theorem compute_giou_le_iou (b1 b2 : BoxC)
    (hw1 : 0 ≤ b1.w) (hh1 : 0 ≤ b1.h) (hw2 : 0 ≤ b2.w) (hh2 : 0 ≤ b2.h) :
    (compute_giou b1 b2).2 ≤ (compute_giou b1 b2).1 ∧
    ((compute_giou b1 b2).2 = (compute_giou b1 b2).1 ↔
      union_area b1 b2 = enclose_area b1 b2) := by
  have h1 : (compute_giou b1 b2).1 = compute_iou b1 b2 := by
    rw [compute_giou_eq]
  have h2 : (compute_giou b1 b2).2 = compute_iou b1 b2 -
      divide_no_nan (enclose_area b1 b2 - union_area b1 b2)
        (enclose_area b1 b2) := by
    rw [compute_giou_eq]
  have hUle := union_le_enclose b1 b2 hw1 hh1 hw2 hh2
  have hC0 := enclose_area_nonneg b1 b2 hw1 hh1 hw2 hh2
  rw [h1, h2]
  rcases eq_or_ne (enclose_area b1 b2) 0 with h0 | h0
  · have hU0 := enclose_zero_union_zero b1 b2 hw1 hh1 hw2 hh2 h0
    rw [h0, hU0]
    simp [divide_no_nan]
  · have hCpos : 0 < enclose_area b1 b2 := hC0.lt_of_ne (Ne.symm h0)
    simp only [divide_no_nan, if_neg h0]
    have hnn : 0 ≤ (enclose_area b1 b2 - union_area b1 b2) / enclose_area b1 b2 :=
      div_nonneg (by linarith) hC0
    refine ⟨by linarith, ?_⟩
    constructor
    · intro he
      have hq : (enclose_area b1 b2 - union_area b1 b2) / enclose_area b1 b2 = 0 := by
        linarith
      rcases div_eq_zero_iff.mp hq with h | h
      · linarith
      · exact absurd h h0
    · intro he
      rw [he]
      simp

/-- Witness for `compute_giou_le_iou` at two identical unit-square boxes. -/
theorem compute_giou_le_iou_witness :
    (compute_giou ⟨0, 0, 2, 2⟩ ⟨0, 0, 2, 2⟩).2 ≤
        (compute_giou ⟨0, 0, 2, 2⟩ ⟨0, 0, 2, 2⟩).1 ∧
      ((compute_giou ⟨0, 0, 2, 2⟩ ⟨0, 0, 2, 2⟩).2 =
          (compute_giou ⟨0, 0, 2, 2⟩ ⟨0, 0, 2, 2⟩).1 ↔
        union_area ⟨0, 0, 2, 2⟩ ⟨0, 0, 2, 2⟩ =
          enclose_area ⟨0, 0, 2, 2⟩ ⟨0, 0, 2, 2⟩) :=
  compute_giou_le_iou ⟨0, 0, 2, 2⟩ ⟨0, 0, 2, 2⟩ (by norm_num) (by norm_num)
    (by norm_num) (by norm_num)

/-! ### IoU properties -/

theorem compute_iou_eq (b1 b2 : BoxC) :
    compute_iou b1 b2 =
      clip_by_value (divide_no_nan (inter_area b1 b2) (union_area b1 b2)) 0 1 :=
  rfl

lemma overlap_comm (a b c d : ℚ) :
    max (min a b - max c d) 0 = max (min b a - max d c) 0 := by
  rw [min_comm a b, max_comm c d]

lemma inter_area_comm (b1 b2 : BoxC) : inter_area b1 b2 = inter_area b2 b1 := by
  simp only [inter_area, _intersection_and_union, _xcycwh_to_xyxy]
  rw [overlap_comm (b1.x + b1.w / 2) (b2.x + b2.w / 2) (b1.x - b1.w / 2)
      (b2.x - b2.w / 2),
    overlap_comm (b1.y + b1.h / 2) (b2.y + b2.h / 2) (b1.y - b1.h / 2)
      (b2.y - b2.h / 2)]

lemma union_area_comm (b1 b2 : BoxC) : union_area b1 b2 = union_area b2 b1 := by
  simp only [union_area, _intersection_and_union, _get_area, _xcycwh_to_xyxy]
  rw [overlap_comm (b1.x + b1.w / 2) (b2.x + b2.w / 2) (b1.x - b1.w / 2)
      (b2.x - b2.w / 2),
    overlap_comm (b1.y + b1.h / 2) (b2.y + b2.h / 2) (b1.y - b1.h / 2)
      (b2.y - b2.h / 2)]
  ring

lemma inter_area_self (b : BoxC) (hw : 0 ≤ b.w) (hh : 0 ≤ b.h) :
    inter_area b b = b.w * b.h := by
  simp only [inter_area, _intersection_and_union, _xcycwh_to_xyxy, min_self,
    max_self]
  have hx : b.x + b.w / 2 - (b.x - b.w / 2) = b.w := by ring
  have hy : b.y + b.h / 2 - (b.y - b.h / 2) = b.h := by ring
  rw [hx, hy, max_eq_left hw, max_eq_left hh]

lemma union_area_self (b : BoxC) (hw : 0 ≤ b.w) (hh : 0 ≤ b.h) :
    union_area b b = b.w * b.h := by
  simp only [union_area, _intersection_and_union, _get_area, _xcycwh_to_xyxy,
    min_self, max_self]
  have hx : b.x + b.w / 2 - (b.x - b.w / 2) = b.w := by ring
  have hy : b.y + b.h / 2 - (b.y - b.h / 2) = b.h := by ring
  rw [hx, hy, max_eq_left hw, max_eq_left hh]
  ring

lemma clip01_bounds (v : ℚ) :
    0 ≤ clip_by_value v 0 1 ∧ clip_by_value v 0 1 ≤ 1 :=
  ⟨le_min (le_max_right v 0) zero_le_one, min_le_right _ _⟩

/-- C9 (amended): `compute_iou` is symmetric; on two identical boxes with
positive width and height it returns 1; when the geometric intersection is
zero it returns 0; and its result always lies in [0, 1].  (The unamended
claim fails on identical zero-area boxes, where the zero-safe division turns
0/0 into 0 rather than 1.) -/
theorem compute_iou_props (b1 b2 : BoxC) :
    compute_iou b1 b2 = compute_iou b2 b1 ∧
    (0 < b1.w → 0 < b1.h → compute_iou b1 b1 = 1) ∧
    (inter_area b1 b2 = 0 → compute_iou b1 b2 = 0) ∧
    0 ≤ compute_iou b1 b2 ∧ compute_iou b1 b2 ≤ 1 := by
  refine ⟨?_, ?_, ?_, clip01_bounds _⟩
  · rw [compute_iou_eq, compute_iou_eq, inter_area_comm, union_area_comm]
  · intro hw hh
    have hne : b1.w * b1.h ≠ 0 :=
      ne_of_gt (mul_pos hw hh)
    rw [compute_iou_eq, inter_area_self b1 hw.le hh.le,
      union_area_self b1 hw.le hh.le]
    rw [divide_no_nan, if_neg hne, div_self hne]
    norm_num [clip_by_value]
  · intro h
    rw [compute_iou_eq, h]
    simp [divide_no_nan, clip_by_value]

/-- Counterexample to C9 as stated: an identical pair of degenerate
(zero-area) boxes has IoU 0, not 1. -/
theorem compute_iou_self_degenerate :
    compute_iou ⟨0, 0, 0, 0⟩ ⟨0, 0, 0, 0⟩ ≠ 1 := by
  norm_num [compute_iou, _intersection_and_union, _get_area, _xcycwh_to_xyxy,
    divide_no_nan, clip_by_value]

/-- Witness for `compute_iou_props`: a unit box at the origin and a disjoint
unit box, discharging the positivity and zero-intersection hypotheses. -/
theorem compute_iou_props_witness :
    compute_iou ⟨0, 0, 1, 1⟩ ⟨5, 5, 1, 1⟩ = compute_iou ⟨5, 5, 1, 1⟩ ⟨0, 0, 1, 1⟩ ∧
    compute_iou ⟨0, 0, 1, 1⟩ ⟨0, 0, 1, 1⟩ = 1 ∧
    compute_iou ⟨0, 0, 1, 1⟩ ⟨5, 5, 1, 1⟩ = 0 ∧
    0 ≤ compute_iou ⟨0, 0, 1, 1⟩ ⟨5, 5, 1, 1⟩ ∧
    compute_iou ⟨0, 0, 1, 1⟩ ⟨5, 5, 1, 1⟩ ≤ 1 :=
  ⟨(compute_iou_props ⟨0, 0, 1, 1⟩ ⟨5, 5, 1, 1⟩).1,
    (compute_iou_props ⟨0, 0, 1, 1⟩ ⟨5, 5, 1, 1⟩).2.1 (by norm_num) (by norm_num),
    (compute_iou_props ⟨0, 0, 1, 1⟩ ⟨5, 5, 1, 1⟩).2.2.1
      (by norm_num [inter_area, _intersection_and_union, _xcycwh_to_xyxy]),
    (compute_iou_props ⟨0, 0, 1, 1⟩ ⟨5, 5, 1, 1⟩).2.2.2⟩

/-! ## DarkRouteProcess
(src/yolo/modeling/building_blocks/_DarkRouteProcess.py).  The convolution
blocks are abstracted by their effect on the channel depth of the tensor
flowing through them, which is all the claim speaks about. -/

/-- A stage descriptor produced by `DarkRouteProcess._get_layer_list`. -/
inductive RouteStage
  | block
  | spp
deriving DecidableEq, Repr

/-- One built sub-layer: `DarkConv` with a filter count, or `DarkSpp` with its
pooling kernel sizes. -/
inductive RouteLayer
  | conv (filters : Nat)
  | spp (keys : List Nat)
deriving DecidableEq, Repr

/-- Channel depth of a layer's output given its input depth.  A convolution
outputs its configured filter count; `DarkSpp` (modelled from the spec)
concatenates one max-pooled copy of its input per kernel size depth-wise. -/
def RouteLayer.outDepth : RouteLayer → Nat → Nat
  | RouteLayer.conv f, _ => f
  | RouteLayer.spp keys, d => keys.length * d

/-- `DarkRouteProcess._get_layer_list`: `repetitions` copies of `'block'`,
with index 1 replaced by `'spp'` when `repetitions > 2` and spp insertion is
requested. -/
def _get_layer_list (repetitions : Nat) (insert_spp : Bool) : List RouteStage :=
  let layer_config := List.replicate repetitions RouteStage.block
  if 2 < repetitions ∧ insert_spp = true then
    layer_config.set 1 RouteStage.spp
  else layer_config

/-- `DarkRouteProcess._block`: a 1×1 convolution halving the channel count
followed by a 3×3 convolution restoring the full filter count. -/
def _block (filters : Nat) : List RouteLayer :=
  [RouteLayer.conv (filters / 2), RouteLayer.conv filters]

/-- `DarkRouteProcess._spp`: a 1×1 halving convolution followed by the
spatial-pyramid-pooling block with kernel sizes 5, 9, 13. -/
def _spp (filters : Nat) : List RouteLayer :=
  [RouteLayer.conv (filters / 2), RouteLayer.spp [5, 9, 13]]

/-- Loop body of `DarkRouteProcess.build`: extend the layer list with the
expansion of one stage descriptor. -/
def drp_step (filters : Nat) (acc : List RouteLayer) (stage : RouteStage) :
    List RouteLayer :=
  acc ++ match stage with
    | RouteStage.block => _block filters
    | RouteStage.spp => _spp filters

/-- `DarkRouteProcess.build`: expand each stage descriptor into its two
sub-layers, in order. -/
def drp_build (layer_list : List RouteStage) (filters : Nat) : List RouteLayer :=
  layer_list.foldl (drp_step filters) []

/-- The `while i < lim` loop of `DarkRouteProcess.call`: at each step the
previous output is remembered and the next layer applied. -/
def drp_call_loop (layers : List RouteLayer) (lim x_prev x i : Nat) : Nat × Nat :=
  if i < lim then
    drp_call_loop layers lim x
      ((layers.getD i (RouteLayer.conv 0)).outDepth x) (i + 1)
  else (x_prev, x)
termination_by lim - i

/-- `DarkRouteProcess.call` at channel-depth level, with `lim = 2 *
repetitions` as set in the constructor. -/
def drp_call (repetitions : Nat) (insert_spp : Bool) (filters inputs : Nat) :
    Nat × Nat :=
  drp_call_loop (drp_build (_get_layer_list repetitions insert_spp) filters)
    (repetitions * 2) inputs inputs 0

lemma drp_step_length (filters : Nat) (acc : List RouteLayer) (s : RouteStage) :
    (drp_step filters acc s).length = acc.length + 2 := by
  cases s <;> simp [drp_step, _block, _spp]

lemma drp_build_go_length (filters : Nat) (L : List RouteStage) :
    ∀ acc : List RouteLayer,
      (L.foldl (drp_step filters) acc).length = acc.length + 2 * L.length := by
  induction L with
  | nil => intro acc; simp
  | cons s t ih =>
    intro acc
    rw [List.foldl_cons, ih, drp_step_length]
    simp [Nat.mul_succ]
    omega

lemma drp_build_length (r : Nat) (sppFlag : Bool) (filters : Nat) :
    (drp_build (_get_layer_list r sppFlag) filters).length = 2 * r := by
  have hlen : (_get_layer_list r sppFlag).length = r := by
    unfold _get_layer_list
    split <;> simp
  unfold drp_build
  rw [drp_build_go_length, hlen]
  simp

lemma drp_call_loop_step (layers : List RouteLayer) (lim x_prev x i : Nat)
    (h : i < lim) :
    drp_call_loop layers lim x_prev x i =
      drp_call_loop layers lim x
        ((layers.getD i (RouteLayer.conv 0)).outDepth x) (i + 1) := by
  rw [drp_call_loop]
  exact if_pos h

lemma drp_call_loop_done (layers : List RouteLayer) (lim x_prev x i : Nat)
    (h : ¬ i < lim) :
    drp_call_loop layers lim x_prev x i = (x_prev, x) := by
  rw [drp_call_loop]
  exact if_neg h

lemma drp_build_three_false (f : Nat) :
    drp_build (_get_layer_list 3 false) f =
      [RouteLayer.conv (f / 2), RouteLayer.conv f, RouteLayer.conv (f / 2),
        RouteLayer.conv f, RouteLayer.conv (f / 2), RouteLayer.conv f] := by
  simp [drp_build, _get_layer_list, drp_step, _block, _spp, List.replicate]

lemma drp_build_three_true (f : Nat) :
    drp_build (_get_layer_list 3 true) f =
      [RouteLayer.conv (f / 2), RouteLayer.conv f, RouteLayer.conv (f / 2),
        RouteLayer.spp [5, 9, 13], RouteLayer.conv (f / 2), RouteLayer.conv f] := by
  simp [drp_build, _get_layer_list, drp_step, _block, _spp, List.replicate,
    List.set]

/-- C7: the built layer list of a `DarkRouteProcess` with `repetitions = r`
has exactly `2 * r` stages, and with `repetitions = 3` the invocation returns
the pair (second-to-last stage output, final stage output) whose channel
depths are half (integer division, as in the 1×1 halving convolution) and the
full configured filter count. -/
theorem darkRouteProcess_stages (r f d : Nat) (sppFlag : Bool) (h : 1 ≤ r) :
    (drp_build (_get_layer_list r sppFlag) f).length = 2 * r ∧
    drp_call 3 sppFlag f d = (f / 2, f) := by
  refine ⟨drp_build_length r sppFlag f, ?_⟩
  unfold drp_call
  cases sppFlag
  · rw [drp_build_three_false,
      drp_call_loop_step _ _ _ _ _ (by norm_num),
      drp_call_loop_step _ _ _ _ _ (by norm_num),
      drp_call_loop_step _ _ _ _ _ (by norm_num),
      drp_call_loop_step _ _ _ _ _ (by norm_num),
      drp_call_loop_step _ _ _ _ _ (by norm_num),
      drp_call_loop_step _ _ _ _ _ (by norm_num),
      drp_call_loop_done _ _ _ _ _ (by norm_num)]
    rfl
  · rw [drp_build_three_true,
      drp_call_loop_step _ _ _ _ _ (by norm_num),
      drp_call_loop_step _ _ _ _ _ (by norm_num),
      drp_call_loop_step _ _ _ _ _ (by norm_num),
      drp_call_loop_step _ _ _ _ _ (by norm_num),
      drp_call_loop_step _ _ _ _ _ (by norm_num),
      drp_call_loop_step _ _ _ _ _ (by norm_num),
      drp_call_loop_done _ _ _ _ _ (by norm_num)]
    rfl

/-- Witness for `darkRouteProcess_stages` at `repetitions = 3`,
`filters = 1024`, input depth 512. -/
theorem darkRouteProcess_stages_witness :
    (drp_build (_get_layer_list 3 false) 1024).length = 2 * 3 ∧
    drp_call 3 false 1024 512 = (1024 / 2, 1024) :=
  darkRouteProcess_stages 3 1024 512 false (by norm_num)

/-! ## YoloV1Layer.parse_boxes
(src/yolo/modeling/building_blocks/_YoloV1Layer.py).  The tensor operation is
elementwise over the [batch, size, size, num_boxes] leading axes; one raw box
at grid cell (row, col) is embedded. -/

/-- Modelled from the spec: `loss_utils._build_grid_points` supplies a
constant grid of cell-origin offsets in normalized [0, 1] coordinates; the
cell in row `i`, column `j` of a `size × size` grid has origin
`(j / size, i / size)` in (x, y) channel order. -/
def _build_grid_points (size row col : Nat) : ℚ × ℚ :=
  ((col : ℚ) / (size : ℚ), (row : ℚ) / (size : ℚ))

/-- `YoloV1Layer.parse_boxes` on one raw center-form box at cell (row, col):
x, y are left as given (the sigmoid is commented out in the source), w, h are
squared (`tf.math.pow(boxes_wh, 2)`, not exponentiated), then x, y are scaled
by `1/size` and the grid offsets added. -/
def parse_boxes (size row col : Nat) (b : BoxC) : BoxC :=
  let grid_points := _build_grid_points size row col
  let boxes_xy := (b.x, b.y)
  let boxes_wh := (b.w ^ 2, b.h ^ 2)
  let boxes_xy2 :=
    (boxes_xy.1 / (size : ℚ) + grid_points.1,
      boxes_xy.2 / (size : ℚ) + grid_points.2)
  ⟨boxes_xy2.1, boxes_xy2.2, boxes_wh.1, boxes_wh.2⟩

/-- The spec's "grid cell's top-left corner" in normalized coordinates. -/
def cell_top_left (size row col : Nat) : ℚ × ℚ :=
  ((col : ℚ) / (size : ℚ), (row : ℚ) / (size : ℚ))

/-- C8: `parse_boxes` squares the w, h channels exactly, maps the x, y
channels affinely (raw value scaled by 1/size plus the cell origin — no
sigmoid), and a raw (0,0) x, y offset decodes to exactly the grid cell's
top-left corner. -/
theorem parse_boxes_spec (size row col : Nat) (b : BoxC) :
    (parse_boxes size row col b).w = b.w ^ 2 ∧
    (parse_boxes size row col b).h = b.h ^ 2 ∧
    (parse_boxes size row col b).x =
      b.x / (size : ℚ) + (cell_top_left size row col).1 ∧
    (parse_boxes size row col b).y =
      b.y / (size : ℚ) + (cell_top_left size row col).2 ∧
    (b.x = 0 → b.y = 0 →
      ((parse_boxes size row col b).x, (parse_boxes size row col b).y) =
        cell_top_left size row col) := by
  refine ⟨rfl, rfl, rfl, rfl, ?_⟩
  intro hx hy
  simp [parse_boxes, _build_grid_points, cell_top_left, hx, hy]

/-- Witness for `parse_boxes_spec` on a 7×7 grid at cell (2, 4) with raw box
(0, 0, 3, 4). -/
theorem parse_boxes_spec_witness :
    (parse_boxes 7 2 4 ⟨0, 0, 3, 4⟩).w = (⟨0, 0, 3, 4⟩ : BoxC).w ^ 2 ∧
    ((parse_boxes 7 2 4 ⟨0, 0, 3, 4⟩).x, (parse_boxes 7 2 4 ⟨0, 0, 3, 4⟩).y) =
      cell_top_left 7 2 4 :=
  ⟨(parse_boxes_spec 7 2 4 ⟨0, 0, 3, 4⟩).1,
    (parse_boxes_spec 7 2 4 ⟨0, 0, 3, 4⟩).2.2.2.2 rfl rfl⟩

/-! ## Classification parser construction
(src/yolo/dataloaders/Classification_Datapipeline.py) -/

/-- The three accepted floating-point precisions. -/
inductive TfFloatDType
  | float32
  | float16
  | bfloat16
deriving DecidableEq, Repr

/-- A Python `ValueError` carrying its message. -/
structure ValueError where
  msg : String
deriving DecidableEq, Repr

/-- The configuration stored by `Classification_Parser.__init__`. -/
structure ClassificationCfg where
  output_size : List Nat
  num_classes : Nat
  aug_rand_saturation : Bool
  aug_rand_brightness : Bool
  aug_rand_zoom : Bool
  aug_rand_rotate : Bool
  aug_rand_hue : Bool
  aug_rand_aspect : Bool
  scale : List ℚ
  dtype : TfFloatDType
deriving DecidableEq, Repr

/-- `Classification_Parser.__init__`: stores the configuration and validates
the `dtype` string; the cascade accepts exactly three values and otherwise
raises `ValueError` at construction time, before any parse call. -/
def classification_init (output_size : List Nat) (num_classes : Nat)
    (sat bright zoom rot hue aspect : Bool) (scale : List ℚ)
    (dtype : String) : Except ValueError ClassificationCfg :=
  if dtype = "float32" then
    Except.ok ⟨output_size, num_classes, sat, bright, zoom, rot, hue, aspect,
      scale, TfFloatDType.float32⟩
  else if dtype = "float16" then
    Except.ok ⟨output_size, num_classes, sat, bright, zoom, rot, hue, aspect,
      scale, TfFloatDType.float16⟩
  else if dtype = "bfloat16" then
    Except.ok ⟨output_size, num_classes, sat, bright, zoom, rot, hue, aspect,
      scale, TfFloatDType.bfloat16⟩
  else
    Except.error ⟨"dtype " ++ dtype ++ " is not supported!"⟩

/-- C10: construction succeeds exactly for dtype strings "float32",
"float16", "bfloat16"; any other value yields the `ValueError` at
construction time (no parse is involved). -/
theorem classification_init_dtype (o : List Nat) (n : Nat)
    (sat bright zoom rot hue aspect : Bool) (sc : List ℚ) (dtype : String) :
    ((∃ cfg, classification_init o n sat bright zoom rot hue aspect sc dtype =
        Except.ok cfg) ↔
      (dtype = "float32" ∨ dtype = "float16" ∨ dtype = "bfloat16")) ∧
    (dtype ≠ "float32" → dtype ≠ "float16" → dtype ≠ "bfloat16" →
      classification_init o n sat bright zoom rot hue aspect sc dtype =
        Except.error ⟨"dtype " ++ dtype ++ " is not supported!"⟩) := by
  unfold classification_init
  split_ifs with h1 h2 h3 <;> simp_all

/-- Witness for `classification_init_dtype` at the unsupported dtype
"int8". -/
theorem classification_init_dtype_witness :
    classification_init [224, 224] 10 true true true true true true
        [128, 448] "int8" =
      Except.error ⟨"dtype " ++ "int8" ++ " is not supported!"⟩ :=
  (classification_init_dtype [224, 224] 10 true true true true true true
      [128, 448] "int8").2 (by decide) (by decide) (by decide)

/-! ## Name resolution in the detection-parser module
(src/yolo/dataloaders/parsers/YOLO_Detection_Input.py) -/

/-- The names bound at module level in YOLO_Detection_Input.py: the `tf`
import, the nine `from ... import ...` names, and the two classes the module
itself defines. -/
def yoloDetectionModuleNames : List String :=
  ["tf", "Parser", "_get_best_anchor", "random_jitter_boxes",
    "random_translate", "random_flip", "pad_max_instances",
    "_xcycwh_to_xyxy", "_xcycwh_to_yxyx", "_yxyx_to_xcycwh",
    "YoloParser", "YoloPostProcessing"]

/-- The global (non-local) names referenced by the body of
`YoloParser._parse_eval_data`, in execution order: `tf` on line 129,
`_scale_image` on line 130, then the box conversion, anchor and padding
helpers and the casts on lines 131-137. -/
def parseEvalGlobalRefs : List String :=
  ["tf", "_scale_image", "_yxyx_to_xcycwh", "_get_best_anchor",
    "pad_max_instances", "pad_max_instances", "pad_max_instances",
    "pad_max_instances", "tf", "pad_max_instances", "tf"]

/-- Python name resolution over the module namespace: the first referenced
global not bound in the module raises `NameError` (carrying the name) before
any value is returned. -/
def parseEvalNameResolution : Except String Unit :=
  match parseEvalGlobalRefs.find?
      (fun n => !(yoloDetectionModuleNames.contains n)) with
  | some n => Except.error n
  | none => Except.ok ()

/-- C5: the evaluation parse references `_scale_image`, which is neither
defined in the module nor imported, so name resolution fails there — before
any (image, labels) pair can be produced. -/
theorem parse_eval_name_error :
    parseEvalNameResolution = Except.error "_scale_image" ∧
    yoloDetectionModuleNames.contains "_scale_image" = false :=
  ⟨rfl, rfl⟩

/-! ## Detection parser (src/yolo/dataloaders/parsers/YOLO_Detection_Input.py)

The claims about the detection parser concern only label values, instance
counts and the shape components of the image, so the image tensor is embedded
at shape granularity (the photometric jitters are shape-preserving pixel
operations).  The helpers from `preprocessing_ops` and `box_utils` are not
under src/ and are modelled from the spec, with the sampled randomness passed
explicitly. -/

/-- Shape-level embedding of an image tensor (height, width, channels). -/
structure DetImage where
  h : Nat
  w : Nat
  c : Nat
deriving DecidableEq, Repr

/-- A box in the decoder's corner form `y1, x1, y2, x2`. -/
structure BoxYX where
  y1 : ℚ
  x1 : ℚ
  y2 : ℚ
  x2 : ℚ
deriving DecidableEq, Repr

/-- The per-instance arrays of a decoded detection record. -/
structure DetObjects where
  bbox : List BoxYX
  label : List Int
  area : List ℚ
  is_crowd : List Bool
deriving DecidableEq, Repr

/-- A decoded detection dataset record. -/
structure DetRecord where
  image : DetImage
  image_id : Nat
  objects : DetObjects
deriving DecidableEq, Repr

/-- The label dict emitted by the detection parser. -/
structure DetLabels where
  source_id : Nat
  bbox : List BoxC
  classes : List Int
  area : List ℚ
  is_crowd : List Int
  best_anchors : List Int
  width : Nat
  height : Nat
  num_detections : Nat
deriving DecidableEq, Repr

/-- Modelled from the spec: `box_utils._yxyx_to_xcycwh`, the exact
corner-to-center conversion. -/
def _yxyx_to_xcycwh (b : BoxYX) : BoxC :=
  ⟨(b.x1 + b.x2) / 2, (b.y1 + b.y2) / 2, b.x2 - b.x1, b.y2 - b.y1⟩

/-- Modelled from the spec: `preprocessing_ops.pad_max_instances` pads or
truncates the leading (instance) dimension to exactly `max_count`, filling
new entries with `pad_value`. -/
def pad_max_instances {α : Type} (xs : List α) (max_count : Nat)
    (pad_value : α) : List α :=
  xs.take max_count ++ List.replicate (max_count - xs.length) pad_value

/-- Modelled from the spec: `random_jitter_boxes` perturbs each box's
coordinates by up to the jitter fraction of its own size, leaving box count
and order unchanged.  `rand` supplies the sampled per-box perturbations. -/
def random_jitter_boxes (jitter : ℚ) (rand : Nat → ℚ × ℚ × ℚ × ℚ)
    (boxes : List BoxC) : List BoxC :=
  boxes.mapIdx (fun i b =>
    let r := rand i
    ⟨b.x + jitter * b.w * r.1, b.y + jitter * b.h * r.2.1,
      b.w + jitter * b.w * r.2.2.1, b.h + jitter * b.h * r.2.2.2⟩)

/-- Modelled from the spec: `random_flip` horizontally flips the image and
mirrors the box x-coordinates atomically when the sampled coin is true.  The
pixel flip is shape-preserving, so it is invisible at shape granularity. -/
def random_flip (coin : Bool) (image : DetImage) (boxes : List BoxC) :
    DetImage × List BoxC :=
  if coin then (image, boxes.map (fun b => ⟨1 - b.x, b.y, b.w, b.h⟩))
  else (image, boxes)

/-- Modelled from the spec: `random_translate` shifts image content and
co-shifts all boxes by the sampled translation, clipping boxes that leave
the frame rather than dropping them. -/
def random_translate (shift : ℚ × ℚ) (image : DetImage) (boxes : List BoxC) :
    DetImage × List BoxC :=
  (image, boxes.map (fun b =>
    ⟨clip_by_value (b.x + shift.1) 0 1, clip_by_value (b.y + shift.2) 0 1,
      b.w, b.h⟩))

/-- Shape-only IoU of a (pixel-scaled) box against an anchor, both centered
at the same point — the comparison `_get_best_anchor` performs. -/
def anchor_shape_iou (bw bh aw ah : ℚ) : ℚ :=
  let i := min bw aw * min bh ah
  divide_no_nan i (bw * bh + aw * ah - i)

/-- Index of the first maximal value, ties broken by declaration order. -/
def best_anchor_go (vals : List ℚ) (i : Nat) (bestIdx : Int) (bestVal : ℚ) :
    Int :=
  match vals with
  | [] => bestIdx
  | v :: rest =>
    if bestVal < v then best_anchor_go rest (i + 1) (Int.ofNat i) v
    else best_anchor_go rest (i + 1) bestIdx bestVal

/-- Modelled from the spec: `preprocessing_ops._get_best_anchor` assigns to
every ground-truth box the index of the anchor with the best shape-only IoU
(ties by anchor declaration order), scaling the normalized box to pixels. -/
def _get_best_anchor (boxes : List BoxC) (anchors : List (ℚ × ℚ))
    (image_w image_h : Nat) : List Int :=
  boxes.map (fun b =>
    best_anchor_go
      (anchors.map (fun a =>
        anchor_shape_iou (b.w * (image_w : ℚ)) (b.h * (image_h : ℚ)) a.1 a.2))
      0 (-1) (-1))

/-- `tf.image.resize` at shape granularity. -/
def tf_resize (image : DetImage) (hw : Nat × Nat) : DetImage :=
  ⟨hw.1, hw.2, image.c⟩

/-- Modelled from the spec: `_scale_image` (referenced by the eval parse but
missing from the module, see `parse_eval_name_error`) letterbox-resizes the
image to the target width/height. -/
def _scale_image (image : DetImage) (w hgt : Nat) : DetImage :=
  ⟨hgt, w, image.c⟩

/-- The configuration fields of `YoloParser` used by the two parse
branches. -/
structure YoloParserCfg where
  image_w : Nat
  image_h : Nat
  jitter_im : ℚ
  jitter_boxes : ℚ
  max_process_size : Nat
  max_num_instances : Nat
  random_flip : Bool
  anchors : List (ℚ × ℚ)
deriving Repr

/-- The randomness consumed by one training parse. -/
structure ParseRand where
  jitter : Nat → ℚ × ℚ × ℚ × ℚ
  flip : Bool
  translate : ℚ × ℚ

/-- Boxes after corner-to-center conversion and optional jitter (lines
86-88); `_get_best_anchor` consumes exactly these (line 89). -/
def train_boxes_jittered (cfg : YoloParserCfg) (rand : ParseRand)
    (data : DetRecord) : List BoxC :=
  let boxes := data.objects.bbox.map _yxyx_to_xcycwh
  if cfg.jitter_boxes ≠ 0 then
    random_jitter_boxes cfg.jitter_boxes rand.jitter boxes
  else boxes

/-- Image and boxes after the resize, photometric jitter (shape-preserving),
optional flip and optional translate (lines 91-101). -/
def train_image_boxes (cfg : YoloParserCfg) (rand : ParseRand)
    (data : DetRecord) : DetImage × List BoxC :=
  let boxes := train_boxes_jittered cfg rand data
  let image := tf_resize data.image (cfg.max_process_size, cfg.max_process_size)
  let ib := if cfg.random_flip then random_flip rand.flip image boxes
    else (image, boxes)
  if cfg.jitter_im ≠ 0 then random_translate rand.translate ib.1 ib.2 else ib

/-- `YoloParser._parse_train_data` (lines 77-119): note `width` and `height`
are read from indices 1 and 2 of the pre-resize image shape `[h, w, c]`. -/
def _parse_train_data (cfg : YoloParserCfg) (rand : ParseRand)
    (data : DetRecord) : DetImage × DetLabels :=
  let shape : List Nat := [data.image.h, data.image.w, data.image.c]
  let best_anchors := _get_best_anchor (train_boxes_jittered cfg rand data)
    cfg.anchors cfg.image_w cfg.image_h
  let ib := train_image_boxes cfg rand data
  let boxes := pad_max_instances ib.2 cfg.max_num_instances ⟨0, 0, 0, 0⟩
  let classes := pad_max_instances data.objects.label cfg.max_num_instances (-1)
  let best_anchors := pad_max_instances best_anchors cfg.max_num_instances 0
  let area := pad_max_instances data.objects.area cfg.max_num_instances 0
  let is_crowd := pad_max_instances
    (data.objects.is_crowd.map (fun b => if b then (1 : Int) else 0))
    cfg.max_num_instances 0
  (ib.1,
    { source_id := data.image_id, bbox := boxes, classes := classes,
      area := area, is_crowd := is_crowd, best_anchors := best_anchors,
      width := shape.getD 1 0, height := shape.getD 2 0,
      num_detections := data.objects.label.length })

/-- The eval parse's boxes: corner-to-center conversion only (line 131). -/
def eval_boxes (data : DetRecord) : List BoxC :=
  data.objects.bbox.map _yxyx_to_xcycwh

/-- `YoloParser._parse_eval_data` (lines 121-149), with the missing
`_scale_image` modelled from the spec as a letterbox resize (in the real
module this line raises NameError, see `parse_eval_name_error`); classes are
padded with 0 here rather than −1. -/
def _parse_eval_data (cfg : YoloParserCfg) (data : DetRecord) :
    DetImage × DetLabels :=
  let shape : List Nat := [data.image.h, data.image.w, data.image.c]
  let image := _scale_image data.image cfg.image_w cfg.image_h
  let boxes := eval_boxes data
  let best_anchors := _get_best_anchor boxes cfg.anchors cfg.image_w cfg.image_h
  let boxes := pad_max_instances boxes cfg.max_num_instances ⟨0, 0, 0, 0⟩
  let classes := pad_max_instances data.objects.label cfg.max_num_instances 0
  let best_anchors := pad_max_instances best_anchors cfg.max_num_instances 0
  let area := pad_max_instances data.objects.area cfg.max_num_instances 0
  let is_crowd := pad_max_instances
    (data.objects.is_crowd.map (fun b => if b then (1 : Int) else 0))
    cfg.max_num_instances 0
  (image,
    { source_id := data.image_id, bbox := boxes, classes := classes,
      area := area, is_crowd := is_crowd, best_anchors := best_anchors,
      width := shape.getD 1 0, height := shape.getD 2 0,
      num_detections := data.objects.label.length })

lemma pad_max_instances_eq_append {α : Type} (xs : List α) (n : Nat) (p : α)
    (h : xs.length ≤ n) :
    pad_max_instances xs n p = xs ++ List.replicate (n - xs.length) p := by
  unfold pad_max_instances
  rw [List.take_of_length_le h]

lemma pad_max_instances_length {α : Type} (xs : List α) (n : Nat) (p : α) :
    (pad_max_instances xs n p).length = n := by
  unfold pad_max_instances
  simp
  omega

lemma random_flip_len (coin : Bool) (image : DetImage) (boxes : List BoxC) :
    (random_flip coin image boxes).2.length = boxes.length := by
  unfold random_flip
  split <;> simp

lemma random_translate_len (shift : ℚ × ℚ) (image : DetImage)
    (boxes : List BoxC) :
    (random_translate shift image boxes).2.length = boxes.length := by
  simp [random_translate]

lemma train_boxes_jittered_len (cfg : YoloParserCfg) (rand : ParseRand)
    (data : DetRecord) :
    (train_boxes_jittered cfg rand data).length = data.objects.bbox.length := by
  unfold train_boxes_jittered
  split <;> simp [random_jitter_boxes]

lemma train_image_boxes_len (cfg : YoloParserCfg) (rand : ParseRand)
    (data : DetRecord) :
    (train_image_boxes cfg rand data).2.length = data.objects.bbox.length := by
  simp only [train_image_boxes]
  split_ifs <;>
    simp [random_translate_len, random_flip_len, train_boxes_jittered_len]

/-- C3: with `max_num_instances = 200` and `N ≤ 200` ground-truth instances,
the training parse pads `classes` to 200 entries with pad value −1 while the
evaluation parse pads with 0; both pad `bbox` with the zero box; both label
dicts have 200 class entries, and `num_detections` is the true pre-padding
instance count N. -/
theorem yolo_parser_padding (cfg : YoloParserCfg) (rand : ParseRand)
    (data : DetRecord) (N : Nat)
    (hmax : cfg.max_num_instances = 200)
    (hlab : data.objects.label.length = N)
    (hbox : data.objects.bbox.length = N)
    (hN : N ≤ 200) :
    (_parse_train_data cfg rand data).2.classes =
        data.objects.label ++ List.replicate (200 - N) (-1) ∧
    (_parse_eval_data cfg data).2.classes =
        data.objects.label ++ List.replicate (200 - N) 0 ∧
    (_parse_train_data cfg rand data).2.bbox =
        (train_image_boxes cfg rand data).2 ++
          List.replicate (200 - N) ⟨0, 0, 0, 0⟩ ∧
    (_parse_eval_data cfg data).2.bbox =
        eval_boxes data ++ List.replicate (200 - N) ⟨0, 0, 0, 0⟩ ∧
    (_parse_train_data cfg rand data).2.classes.length = 200 ∧
    (_parse_eval_data cfg data).2.classes.length = 200 ∧
    (_parse_train_data cfg rand data).2.num_detections = N ∧
    (_parse_eval_data cfg data).2.num_detections = N := by
  have hlab_le : data.objects.label.length ≤ 200 := by omega
  have htb_len : (train_image_boxes cfg rand data).2.length = N := by
    rw [train_image_boxes_len, hbox]
  have htb_le : (train_image_boxes cfg rand data).2.length ≤ 200 := by omega
  have hev_len : (eval_boxes data).length = N := by
    simp [eval_boxes, hbox]
  have hev_le : (eval_boxes data).length ≤ 200 := by omega
  refine ⟨?_, ?_, ?_, ?_, ?_, ?_, hlab, hlab⟩
  · show pad_max_instances data.objects.label cfg.max_num_instances (-1) = _
    rw [hmax, pad_max_instances_eq_append _ _ _ hlab_le, hlab]
  · show pad_max_instances data.objects.label cfg.max_num_instances 0 = _
    rw [hmax, pad_max_instances_eq_append _ _ _ hlab_le, hlab]
  · show pad_max_instances (train_image_boxes cfg rand data).2
        cfg.max_num_instances ⟨0, 0, 0, 0⟩ = _
    rw [hmax, pad_max_instances_eq_append _ _ _ htb_le, htb_len]
  · show pad_max_instances (eval_boxes data) cfg.max_num_instances
        ⟨0, 0, 0, 0⟩ = _
    rw [hmax, pad_max_instances_eq_append _ _ _ hev_le, hev_len]
  · show (pad_max_instances data.objects.label cfg.max_num_instances
        (-1)).length = 200
    rw [pad_max_instances_length, hmax]
  · show (pad_max_instances data.objects.label cfg.max_num_instances
        0).length = 200
    rw [pad_max_instances_length, hmax]

/-- A concrete parser configuration with the default 416×416 target, 200 max
instances and three anchors. -/
def sampleCfg : YoloParserCfg :=
  ⟨416, 416, 1 / 10, 1 / 200, 608, 200, true, [(10, 13), (16, 30), (33, 23)]⟩

/-- Deterministic randomness: zero jitter, no flip, zero translation. -/
def zeroRand : ParseRand :=
  ⟨fun _ => (0, 0, 0, 0), false, (0, 0)⟩

/-- A decoded record with a 5×7×3 image and four ground-truth instances. -/
def sampleRecord : DetRecord :=
  ⟨⟨5, 7, 3⟩, 77,
    ⟨[⟨1/10, 1/10, 3/10, 3/10⟩, ⟨2/10, 2/10, 4/10, 4/10⟩,
        ⟨3/10, 3/10, 5/10, 5/10⟩, ⟨4/10, 4/10, 6/10, 6/10⟩],
      [1, 2, 3, 4], [1, 1, 1, 1], [false, false, false, false]⟩⟩

/-- Witness for `yolo_parser_padding` at `sampleRecord` (4 instances). -/
theorem yolo_parser_padding_witness :
    (_parse_train_data sampleCfg zeroRand sampleRecord).2.classes =
        sampleRecord.objects.label ++ List.replicate (200 - 4) (-1) ∧
    (_parse_eval_data sampleCfg sampleRecord).2.classes =
        sampleRecord.objects.label ++ List.replicate (200 - 4) 0 ∧
    (_parse_train_data sampleCfg zeroRand sampleRecord).2.bbox =
        (train_image_boxes sampleCfg zeroRand sampleRecord).2 ++
          List.replicate (200 - 4) ⟨0, 0, 0, 0⟩ ∧
    (_parse_eval_data sampleCfg sampleRecord).2.bbox =
        eval_boxes sampleRecord ++ List.replicate (200 - 4) ⟨0, 0, 0, 0⟩ ∧
    (_parse_train_data sampleCfg zeroRand sampleRecord).2.classes.length = 200 ∧
    (_parse_eval_data sampleCfg sampleRecord).2.classes.length = 200 ∧
    (_parse_train_data sampleCfg zeroRand sampleRecord).2.num_detections = 4 ∧
    (_parse_eval_data sampleCfg sampleRecord).2.num_detections = 4 :=
  yolo_parser_padding sampleCfg zeroRand sampleRecord 4 rfl rfl rfl
    (by norm_num)

/-- C4: the training parse reads `width` from index 1 and `height` from index
2 of the shape `[h, w, c]` of the decoded image, so `width` is the true image
width but `height` is the channel count (3), not the image height — on the
sample 5×7×3 record the emitted height is 3 while the true height is 5. -/
theorem parse_train_height_is_channel_count (cfg : YoloParserCfg)
    (rand : ParseRand) (data : DetRecord) :
    (_parse_train_data cfg rand data).2.width = data.image.w ∧
    (_parse_train_data cfg rand data).2.height = data.image.c ∧
    (_parse_train_data sampleCfg zeroRand sampleRecord).2.width = 7 ∧
    (_parse_train_data sampleCfg zeroRand sampleRecord).2.height = 3 ∧
    sampleRecord.image.h = 5 :=
  ⟨rfl, rfl, rfl, rfl, rfl⟩

/-! ## Classification parse pipelines
(src/yolo/dataloaders/Classification_Datapipeline.py).  The image is embedded
as its flat list of pixel values over exact rationals.  The TensorFlow image
operations the parser delegates to (`resize_with_pad` and the six random
augmentations, plus the half-precision casts) are third-party library
functions outside this repository; they enter the embedding as explicit
function parameters, and the properties of `resize_with_pad` that the claim
depends on (commuting with the scalar division and preserving the pixel
range, both true of bilinear resizing with zero padding) are stated as
hypotheses of the theorem. -/

/-- A decoded classification record: pixels in 0-255, a scalar class id, and
an optional `objects` annotation payload that is passed through verbatim. -/
structure ClassRecord where
  image : List ℚ
  label : Nat
  objects : Option (List ℚ)

/-- The label emitted by either parse branch. -/
inductive ClassLabel
  | objects (payload : List ℚ)
  | one_hot (v : List ℚ)
deriving DecidableEq, Repr

/-- `tf.one_hot` of index `i` over `n` classes. -/
def tf_one_hot (i n : Nat) : List ℚ :=
  (List.range n).map (fun j => if j = i then 1 else 0)

/-- The label handling shared by both branches: pass `objects` through when
present, otherwise one-hot encode the scalar label. -/
def class_label (num_classes : Nat) (rec : ClassRecord) : ClassLabel :=
  match rec.objects with
  | some o => ClassLabel.objects o
  | none => ClassLabel.one_hot (tf_one_hot rec.label num_classes)

/-- The external TensorFlow image operations, as opaque pixel-list
transformations. -/
structure TfImageOps where
  resize_with_pad : List ℚ → List ℚ
  aspect : List ℚ → List ℚ
  zoom : List ℚ → List ℚ
  rotate : List ℚ → List ℚ
  brightness : List ℚ → List ℚ
  saturation : List ℚ → List ℚ
  hue : List ℚ → List ℚ
  cast_float16 : List ℚ → List ℚ
  cast_bfloat16 : List ℚ → List ℚ

/-- `tf.image.convert_image_dtype` on float input: the identity for float32,
a precision-reducing cast for the half dtypes. -/
def convert_image_dtype (ops : TfImageOps) (dt : TfFloatDType)
    (img : List ℚ) : List ℚ :=
  match dt with
  | TfFloatDType.float32 => img
  | TfFloatDType.float16 => ops.cast_float16 img
  | TfFloatDType.bfloat16 => ops.cast_bfloat16 img

/-- `Classification_Parser._parse_train_data`: normalize, then the six
toggled augmentations in source order around the letterbox resize, clip to
[0, 1], cast to the configured precision. -/
def cls_parse_train (ops : TfImageOps) (cfg : ClassificationCfg)
    (rec : ClassRecord) : List ℚ × ClassLabel :=
  let image := rec.image
  let image := image.map (fun v => v / 255)
  let image := if cfg.aug_rand_aspect then ops.aspect image else image
  let image := if cfg.aug_rand_zoom then ops.zoom image else image
  let image := ops.resize_with_pad image
  let image := if cfg.aug_rand_rotate then ops.rotate image else image
  let image := if cfg.aug_rand_brightness then ops.brightness image else image
  let image := if cfg.aug_rand_saturation then ops.saturation image else image
  let image := if cfg.aug_rand_hue then ops.hue image else image
  let image := image.map (fun v => clip_by_value v 0 1)
  let image := convert_image_dtype ops cfg.dtype image
  (image, class_label cfg.num_classes rec)

/-- `Classification_Parser._parse_eval_data`: letterbox resize then
normalize; no augmentation. -/
def cls_parse_eval (ops : TfImageOps) (cfg : ClassificationCfg)
    (rec : ClassRecord) : List ℚ × ClassLabel :=
  let image := rec.image
  let image := ops.resize_with_pad image
  let image := image.map (fun v => v / 255)
  (image, class_label cfg.num_classes rec)

/-- C6: with all six augmentation toggles disabled and dtype float32, the
training parse returns exactly the evaluation parse's (image, label) pair,
for any resize that commutes with the 1/255 scaling and keeps pixels in
[0, 255]. -/
theorem classification_train_eval_agree (ops : TfImageOps)
    (cfg : ClassificationCfg) (rec : ClassRecord)
    (hs : cfg.aug_rand_saturation = false)
    (hb : cfg.aug_rand_brightness = false)
    (hz : cfg.aug_rand_zoom = false)
    (hr : cfg.aug_rand_rotate = false)
    (hh : cfg.aug_rand_hue = false)
    (ha : cfg.aug_rand_aspect = false)
    (hd : cfg.dtype = TfFloatDType.float32)
    (hpix : ∀ v ∈ rec.image, 0 ≤ v ∧ v ≤ 255)
    (hcomm : ∀ img : List ℚ,
      ops.resize_with_pad (img.map (fun v => v / 255)) =
        (ops.resize_with_pad img).map (fun v => v / 255))
    (hrange : ∀ img : List ℚ, (∀ v ∈ img, 0 ≤ v ∧ v ≤ 255) →
      ∀ v ∈ ops.resize_with_pad img, 0 ≤ v ∧ v ≤ 255) :
    cls_parse_train ops cfg rec = cls_parse_eval ops cfg rec := by
  have hmapeq :
      ((ops.resize_with_pad rec.image).map (fun v => v / 255)).map
          (fun v => clip_by_value v 0 1) =
        (ops.resize_with_pad rec.image).map (fun v => v / 255) := by
    rw [List.map_map]
    refine List.map_congr_left ?_
    intro v hv
    obtain ⟨h0, h255⟩ := hrange rec.image hpix v hv
    have h1 : 0 ≤ v / 255 := by positivity
    have h2 : v / 255 ≤ 1 := (div_le_one (by norm_num)).mpr h255
    simp only [Function.comp_apply, clip_by_value]
    rw [max_eq_left h1, min_eq_left h2]
  unfold cls_parse_train cls_parse_eval
  simp only [hs, hb, hz, hr, hh, ha, hd, Bool.false_eq_true, if_false,
    convert_image_dtype]
  rw [hcomm, hmapeq]

/-- All external image operations instantiated with the identity. -/
def idOps : TfImageOps :=
  ⟨id, id, id, id, id, id, id, id, id⟩

/-- A classification parser configuration with every augmentation toggle
disabled and dtype float32. -/
def cls_sample_cfg : ClassificationCfg :=
  ⟨[224, 224], 10, false, false, false, false, false, false, [128, 448],
    TfFloatDType.float32⟩

/-- A three-pixel record with values spanning the 0-255 range. -/
def cls_sample_rec : ClassRecord :=
  ⟨[0, 255, 100], 1, none⟩

/-- Witness for `classification_train_eval_agree` at `cls_sample_rec` with
the identity resize. -/
theorem classification_train_eval_agree_witness :
    cls_parse_train idOps cls_sample_cfg cls_sample_rec =
      cls_parse_eval idOps cls_sample_cfg cls_sample_rec :=
  classification_train_eval_agree idOps cls_sample_cfg cls_sample_rec
    rfl rfl rfl rfl rfl rfl rfl
    (by
      intro v hv
      simp only [cls_sample_rec, List.mem_cons, List.not_mem_nil, or_false]
        at hv
      rcases hv with rfl | rfl | rfl <;> norm_num)
    (fun _ => rfl)
    (fun img h v hv => h v hv)

end Spec2Proof
